import Mathlib

/-!
Shallow embedding of the mouth-animation core of the `TalkingAvatar` component
(`src/unnamed/part_003`, `src/unnamed/part_002`, and
`src/client/src/components/TalkingAvatar.jsx`).

JavaScript numbers are modelled as exact rationals (`ℚ`); the constants
`1.35`, `0.88`, `0.85`, `0.95` of the source appear as `27/20`, `22/25`,
`17/20`, `19/20`.  Mutable morph-target influences are modelled as a total
weight map from (mesh id, target index) pairs to rationals; the per-frame
callback and the async speech call are modelled as explicit state-passing
functions of their inputs and of the outcomes of their collaborators.
-/

namespace Avatar

/-- The canonical vowel mouth shapes `"A" | "E" | "I" | "O" | "U"` used by
`buildVisemeTimelineFromText`, `setMouthShape` and the Azure viseme mapping. -/
inductive Shape
  | A | E | I | O | U
  deriving DecidableEq, Repr, Inhabited, Fintype

/-- One entry of the fallback viseme timeline:
`{ time, shape, value, dur }` as produced by `buildVisemeTimelineFromText`. -/
structure VisemeEvent where
  time : ℚ
  shape : Shape
  value : ℚ
  dur : ℚ
  deriving DecidableEq, Repr, Inhabited

/-- Whitespace characters collapsed by the source's `replace(/\s+/g, " ")`
(the JS `\s` class restricted to the ASCII whitespace that can occur in chat
text). -/
def isJsWs (c : Char) : Bool :=
  c = ' ' || c = '\t' || c = '\n' || c = '\r'

/-- Models `replace(/\s+/g, " ")`: every maximal whitespace run becomes one space.
The boolean argument records whether the previous character was whitespace. -/
def collapseWsAux : List Char → Bool → List Char
  | [], _ => []
  | c :: rest, prevWs =>
    if isJsWs c then
      if prevWs then collapseWsAux rest true
      else ' ' :: collapseWsAux rest true
    else c :: collapseWsAux rest false

/-- Models `.trim()` on a whitespace-collapsed string. -/
def trimChars (l : List Char) : List Char :=
  ((l.dropWhile isJsWs).reverse.dropWhile isJsWs).reverse

/-- Models `(text || "").replace(/\s+/g, " ").trim()`. -/
def cleanText (text : List Char) : List Char :=
  trimChars (collapseWsAux text false)

/-- Models `clean.split(" ")` (split on every single space character). -/
def splitOnSpace : List Char → List (List Char)
  | [] => [[]]
  | c :: rest =>
    match splitOnSpace rest with
    | [] => [[c]]
    | w :: ws => if c = ' ' then [] :: w :: ws else (c :: w) :: ws

/-- Models `clean.split(" ").length`. -/
def wordCount (clean : List Char) : ℕ :=
  (splitOnSpace clean).length

/-- The character class `[^a-z]/gi` keeps exactly the ASCII letters. -/
def isAsciiLetter (c : Char) : Bool :=
  ('a' ≤ c && c ≤ 'z') || ('A' ≤ c && c ≤ 'Z')

/-- Models `clean.replace(/[^a-z]/gi, "") || "aaa"`. -/
def lettersOf (clean : List Char) : List Char :=
  let f := clean.filter isAsciiLetter
  if f = [] then ['a', 'a', 'a'] else f

/-- The per-letter map of `part_003`: vowels via the fixed table, every other
letter (consonant) is the fixed default `"I"`. -/
def mapChar (c : Char) : Shape :=
  let c := c.toLower
  if c = 'a' then .A
  else if c = 'e' then .E
  else if c = 'i' then .I
  else if c = 'o' then .O
  else if c = 'u' then .U
  else .I

/-- The jsx variant's per-letter map: vowels via the same table, consonants
via `Math.random() < 0.5 ? "I" : "U"`.  The boolean `r` is the outcome of
the random draw (`r = true` iff the draw was below `0.5`). -/
def mapCharJsx (r : Bool) (c : Char) : Shape :=
  let c := c.toLower
  if c = 'a' then .A
  else if c = 'e' then .E
  else if c = 'i' then .I
  else if c = 'o' then .O
  else if c = 'u' then .U
  else if r then .I else .U

/-- Line 12 of `part_003`: `totalMs ?? Math.max(1400, Math.min(18000, words * 272 * 1.35))`. -/
def estDuration (words : ℕ) (totalMs : Option ℚ) : ℚ :=
  totalMs.getD (max 1400 (min 18000 ((words : ℚ) * 272 * (27 / 20))))

/-- Line 11 of `TalkingAvatar.jsx`: `totalMs ?? Math.max(1200, Math.min(12000, words * 333))`. -/
def estDurationJsx (words : ℕ) (totalMs : Option ℚ) : ℚ :=
  totalMs.getD (max 1200 (min 12000 ((words : ℚ) * 333)))

/-- The event slot width `step = est / chars.length` of
`buildVisemeTimelineFromText` (`part_003`). -/
def stepOf (text : List Char) (totalMs : Option ℚ) : ℚ :=
  estDuration (wordCount (cleanText text)) totalMs / ((lettersOf (cleanText text)).length : ℚ)

/-- The `buildVisemeTimelineFromText` of `src/unnamed/part_003` lines 8-25
(identical to `src/unnamed/part_002` lines 327-349): normalize, estimate the
duration, keep the letters, and emit one event per letter with
`time = i*step`, `value = 0.95`, `dur = step*0.88`. -/
def buildVisemeTimelineFromText (text : List Char) (totalMs : Option ℚ) : List VisemeEvent :=
  let clean := cleanText text
  if clean = [] then []
  else
    let est := estDuration (wordCount clean) totalMs
    let chars := lettersOf clean
    let step := est / (chars.length : ℚ)
    chars.enum.map fun ic =>
      { time := (ic.1 : ℚ) * step, shape := mapChar ic.2, value := 19 / 20, dur := step * (22 / 25) }

/-- The `buildVisemeTimelineFromText` of
`src/client/src/components/TalkingAvatar.jsx` lines 7-31: same structure with
constants `1200/12000/333`, `dur = step*0.85`, and the random consonant map.
`rand i` is the outcome of the `Math.random() < 0.5` draw for character `i`. -/
def buildVisemeTimelineFromTextJsx (rand : ℕ → Bool) (text : List Char) (totalMs : Option ℚ) :
    List VisemeEvent :=
  let clean := cleanText text
  if clean = [] then []
  else
    let est := estDurationJsx (wordCount clean) totalMs
    let chars := lettersOf clean
    let step := est / (chars.length : ℚ)
    chars.enum.map fun ic =>
      { time := (ic.1 : ℚ) * step, shape := mapCharJsx (rand ic.1) ic.2, value := 19 / 20,
        dur := step * (17 / 20) }

/-! ### Channel registry and mouth-shape actuator -/

/-- A registered morph channel: `{ mesh, idx }` as pushed by
`registerMorphTargets`, plus whether `mesh.morphTargetInfluences` exists
(the guard checked by `setMouthShape` / `clearAllMouth`). -/
structure MorphChannel where
  meshId : ℕ
  idx : ℕ
  hasInfluences : Bool
  deriving DecidableEq, Repr, Inhabited

/-- The location a channel writes: the (mesh, target index) pair. -/
abbrev ChanKey := ℕ × ℕ

def MorphChannel.key (c : MorphChannel) : ChanKey := (c.meshId, c.idx)

/-- The mutable `morphTargetInfluences` of all meshes, as one total map. -/
abbrev Weights := ChanKey → ℚ

/-- Models `mesh.morphTargetInfluences[idx] = v`. -/
def writeW (w : Weights) (k : ChanKey) (v : ℚ) : Weights :=
  fun q => if q = k then v else w q

/-- Models `morphIndexRef.current`: the channel registry
`{ A: [], E: [], I: [], O: [], U: [], mouthOpen: [] }`. -/
structure MorphIndex where
  A : List MorphChannel
  E : List MorphChannel
  I : List MorphChannel
  O : List MorphChannel
  U : List MorphChannel
  mouthOpen : List MorphChannel
  deriving DecidableEq, Repr

/-- Lookup `morphIndexRef.current[shape]` for a vowel shape. -/
def MorphIndex.get (r : MorphIndex) : Shape → List MorphChannel
  | .A => r.A
  | .E => r.E
  | .I => r.I
  | .O => r.O
  | .U => r.U

/-- The iteration order `["A", "E", "I", "O", "U"]` of `setMouthShape`. -/
def vowelShapes : List Shape := [.A, .E, .I, .O, .U]

/-- Models `arr.forEach(({mesh, idx}) => { if (mesh.morphTargetInfluences)
mesh.morphTargetInfluences[idx] = v; })`. -/
def applyChannels (chs : List MorphChannel) (v : ℚ) (w : Weights) : Weights :=
  chs.foldl (fun w ch => if ch.hasInfluences then writeW w ch.key v else w) w

/-- The `setMouthShape` of `part_003` lines 116-130 (same as `part_002` lines
444-459): if the requested shape has registered channels, walk all five vowel
lists writing `value` on the requested shape's channels and `0` on the rest;
otherwise fall back to writing `value` on the `mouthOpen` channels. -/
def setMouthShape (r : MorphIndex) (shape : Shape) (value : ℚ) (w : Weights) : Weights :=
  if (r.get shape).length ≠ 0 then
    vowelShapes.foldl
      (fun w nm => applyChannels (r.get nm) (if nm = shape then value else 0) w) w
  else
    applyChannels r.mouthOpen value w

/-- Models `Object.values(morphIndexRef.current)` in insertion order. -/
def allChannelLists (r : MorphIndex) : List (List MorphChannel) :=
  [r.A, r.E, r.I, r.O, r.U, r.mouthOpen]

/-- The `clearAllMouth` of `part_003` lines 108-114: write `0` on every
registered channel of every list, `mouthOpen` included. -/
def clearAllMouth (r : MorphIndex) (w : Weights) : Weights :=
  (allChannelLists r).foldl (fun w arr => applyChannels arr 0 w) w

/-- Membership of a channel in the registry (any of the six lists). -/
def registeredIn (r : MorphIndex) (ch : MorphChannel) : Prop :=
  ch ∈ r.A ∨ ch ∈ r.E ∨ ch ∈ r.I ∨ ch ∈ r.O ∨ ch ∈ r.U ∨ ch ∈ r.mouthOpen

instance (r : MorphIndex) (ch : MorphChannel) : Decidable (registeredIn r ch) := by
  unfold registeredIn; infer_instance

/-- Some channel of `chs` with influences writes location `k`. -/
def writesKey (chs : List MorphChannel) (k : ChanKey) : Prop :=
  ∃ ch ∈ chs, ch.hasInfluences = true ∧ ch.key = k

instance (chs : List MorphChannel) (k : ChanKey) : Decidable (writesKey chs k) := by
  unfold writesKey; infer_instance

/-! ### Fallback timeline state and the per-frame tick -/

/-- Models `visemesRef.current = { timeline, startedAt, active }`. -/
structure VisemeState where
  timeline : List VisemeEvent
  startedAt : ℚ
  active : Bool
  deriving DecidableEq, Repr

/-- The backwards scan
`for (let i = len-1; i >= 0; i--) if (elapsed >= timeline[i].time) ...`:
the first event, searching from the end, whose `time ≤ elapsed`. -/
def findLastLE (tl : List VisemeEvent) (elapsed : ℚ) : Option VisemeEvent :=
  tl.reverse.find? fun e => decide (e.time ≤ elapsed)

/-- The dummy event used to express JS array indexing `timeline[len-1]`
(never read on the guarded path). -/
def dummyEvent : VisemeEvent := { time := 0, shape := .I, value := 0, dur := 0 }

/-- Models `timeline[i]` (JS indexing). -/
def evAt (tl : List VisemeEvent) (i : ℕ) : VisemeEvent :=
  tl.getD i dummyEvent

/-- The fallback-timeline portion of the render-loop `tick`
(`part_003` lines 306-323, `part_002` lines 617-634): when active and
nonempty, select the last event with `time ≤ elapsed`, apply its shape if
`elapsed` is inside its window and clear otherwise, and deactivate (clearing
again) once `elapsed` passes the final event's end by the 120 ms grace
window. -/
def timelineTick (r : MorphIndex) (v : VisemeState) (now : ℚ) (w : Weights) :
    VisemeState × Weights :=
  if v.active = true ∧ v.timeline ≠ [] then
    let elapsed := now - v.startedAt
    let w1 :=
      match findLastLE v.timeline elapsed with
      | some k =>
        if elapsed ≤ k.time + k.dur then setMouthShape r k.shape k.value w
        else clearAllMouth r w
      | none => w
    let last := evAt v.timeline (v.timeline.length - 1)
    if last.time + last.dur + 120 < elapsed then
      ({ v with active := false }, clearAllMouth r w1)
    else (v, w1)
  else (v, w)

/-! ### Avatar state, utterance start, stop, and the Azure speech call -/

/-- The component's mouth-animation state: the live-synthesizer handle
`synthRef.current` (session ids stand for synthesizer objects) and the
fallback-timeline state `visemesRef.current`. -/
structure AvatarState where
  synth : Option ℕ
  visemes : VisemeState
  deriving DecidableEq, Repr

/-- Models `driveMouthStart(text, totalMs)` (`part_003` lines 164-167): build a
fresh timeline and replace `visemesRef.current` wholesale, anchored at the
current clock value and active. -/
def driveMouthStart (text : List Char) (totalMs : Option ℚ) (now : ℚ) : VisemeState :=
  { timeline := buildVisemeTimelineFromText text totalMs, startedAt := now, active := true }

/-- The `driveMouthStart` call as a transition on the whole avatar state: it touches
only `visemesRef`, the synthesizer handle is left as it is. -/
def driveMouthStartS (s : AvatarState) (text : List Char) (totalMs : Option ℚ) (now : ℚ) :
    AvatarState :=
  { s with visemes := driveMouthStart text totalMs now }

/-- Models `stopMouth` (`part_003` lines 173-178): deactivate the timeline, clear
all mouth channels, close and null the synthesizer handle. -/
def stopMouth (r : MorphIndex) (s : AvatarState) (w : Weights) : AvatarState × Weights :=
  ({ synth := none, visemes := { s.visemes with active := false } }, clearAllMouth r w)

/-- The two ways the promise returned by `speakAzure` can settle. -/
inductive SpeakOutcome
  | fulfilled
  | rejected
  deriving DecidableEq, Repr

/-- The entry phase of `speakAzure` (`part_003` lines 181-199): close and
null any previous synthesizer, then (once the credential arrived) install
the fresh one.  Only `synthRef` is touched; `visemesRef` is not. -/
def speakAzureStart (s : AvatarState) (newId : ℕ) : AvatarState :=
  { s with synth := some newId }

/-- The whole `speakAzure` call (`part_003` lines 181-229) as a function of
the outcomes of its collaborators.  `credOk` is whether `getToken()`
fulfilled; `synthOk` is whether `speakSsmlAsync` reported success (its error
callback `resolve(false)`s, so both completion callbacks fall through to the
trailing `clearAllMouth()` and the function fulfils).  On a credential
failure the `catch` block rethrows — the promise rejects — and no
`clearAllMouth()` runs. -/
def speakAzure (r : MorphIndex) (s : AvatarState) (newId : ℕ) (credOk : Bool) (synthOk : Bool)
    (w : Weights) : SpeakOutcome × AvatarState × Weights :=
  let s1 : AvatarState := { s with synth := none }
  if credOk then
    let s2 := speakAzureStart s1 newId
    let s3 : AvatarState := { s2 with synth := none }
    (.fulfilled, s3, clearAllMouth r w)
  else
    (.rejected, s1, w)

/-! ### Specification predicates -/

/-- A duration hint is either absent or a positive number of milliseconds. -/
def HintOK (tm : Option ℚ) : Prop := tm = none ∨ ∃ q : ℚ, tm = some q ∧ 0 < q

/-- What the spec's tick sentence asserts at one instant on an active
timeline: an index `j` is selected, the selected event is the last one whose
start time is ≤ elapsed, and the tick applies that event's shape and
intensity when elapsed lies inside its `[time, time+dur]` window and clears
the mouth otherwise, leaving the timeline active. -/
def TickSpec (r : MorphIndex) (tl : List VisemeEvent) (anchor now : ℚ) (w : Weights) : Prop :=
  ∃ j : ℕ, j < tl.length ∧
    (evAt tl j).time ≤ now - anchor ∧
    (∀ i : ℕ, i < tl.length → j < i → now - anchor < (evAt tl i).time) ∧
    findLastLE tl (now - anchor) = some (evAt tl j) ∧
    timelineTick r { timeline := tl, startedAt := anchor, active := true } now w =
      ({ timeline := tl, startedAt := anchor, active := true },
       if now - anchor ≤ (evAt tl j).time + (evAt tl j).dur then
         setMouthShape r (evAt tl j).shape (evAt tl j).value w
       else clearAllMouth r w)

/-! ### Concrete fixtures (registries, weights, states) used by witnesses
and counterexamples -/

/-- The all-zero weight state. -/
def wzero : Weights := fun _ => 0

/-- A weight state with a leftover 0.7 on mesh 0, target 0. -/
def wSeven : Weights := fun k => if k = ((0 : ℕ), (0 : ℕ)) then 7 / 10 else 0

/-- Channel on mesh 0, target 0, influences present. -/
def chA : MorphChannel := { meshId := 0, idx := 0, hasInfluences := true }

/-- Channel on mesh 1, target 0, influences present. -/
def chB : MorphChannel := { meshId := 1, idx := 0, hasInfluences := true }

/-- Channel on mesh 0, target 1, influences present. -/
def chC : MorphChannel := { meshId := 0, idx := 1, hasInfluences := true }

/-- Registry with an `A` channel and an `E` channel on different meshes. -/
def regAE : MorphIndex := { A := [chA], E := [chB], I := [], O := [], U := [], mouthOpen := [] }

/-- Registry where the same (mesh, target) location is registered under both
the `A` and the `E` label — as the substring-based discovery can produce
(for example a dictionary key `"ae"` matches both lookups). -/
def regAEalias : MorphIndex :=
  { A := [chA], E := [chA], I := [], O := [], U := [], mouthOpen := [] }

/-- Registry with an `A` channel and an `I` channel. -/
def regAI : MorphIndex := { A := [chA], E := [], I := [chB], O := [], U := [], mouthOpen := [] }

/-- Registry whose `O` channel aliases the generic mouth-open channel — as
discovery produces whenever a key contains `"mouth_open"` (which contains
the letter `o`). -/
def regOM : MorphIndex := { A := [], E := [], I := [], O := [chC], U := [], mouthOpen := [chC] }

/-- Registry with only a generic mouth-open channel and no vowel channels. -/
def regMO : MorphIndex := { A := [], E := [], I := [], O := [], U := [], mouthOpen := [chA] }

/-- Registry with an `E` channel, no `A` channel, and a separate mouth-open
channel. -/
def regEM : MorphIndex := { A := [], E := [chB], I := [], O := [], U := [], mouthOpen := [chA] }

/-- An avatar state with an in-flight live session (id 7) and an inactive
timeline. -/
def sLive : AvatarState :=
  { synth := some 7, visemes := { timeline := [], startedAt := 0, active := false } }

/-- An avatar state with no live session and an active one-event timeline. -/
def sTimeline : AvatarState :=
  { synth := none,
    visemes :=
      { timeline := [{ time := 0, shape := .A, value := 1, dur := 1000 }],
        startedAt := 0, active := true } }

/-! ### Pointwise characterization of the actuator -/

theorem writesKey_cons (ch : MorphChannel) (t : List MorphChannel) (k : ChanKey) :
    writesKey (ch :: t) k ↔ (ch.hasInfluences = true ∧ ch.key = k) ∨ writesKey t k := by
  constructor
  · rintro ⟨c, hc, h1, h2⟩
    rcases List.mem_cons.mp hc with rfl | hct
    · exact Or.inl ⟨h1, h2⟩
    · exact Or.inr ⟨c, hct, h1, h2⟩
  · rintro (⟨h1, h2⟩ | ⟨c, hc, h1, h2⟩)
    · exact ⟨ch, List.mem_cons_self _ _, h1, h2⟩
    · exact ⟨c, List.mem_cons_of_mem _ hc, h1, h2⟩

theorem applyChannels_apply (chs : List MorphChannel) (v : ℚ) (w : Weights) (k : ChanKey) :
    applyChannels chs v w k = if writesKey chs k then v else w k := by
  induction chs generalizing w with
  | nil => simp [applyChannels, writesKey]
  | cons ch t ih =>
    simp only [applyChannels, List.foldl_cons] at *
    rw [ih]
    by_cases hw : writesKey t k
    · rw [if_pos hw, if_pos ((writesKey_cons ch t k).2 (Or.inr hw))]
    · rw [if_neg hw]
      by_cases hi : ch.hasInfluences = true
      · simp only [hi, if_pos, writeW]
        by_cases hk : k = ch.key
        · rw [if_pos hk, if_pos ((writesKey_cons ch t k).2 (Or.inl ⟨hi, hk.symm⟩))]
        · rw [if_neg hk, if_neg]
          intro h
          rcases (writesKey_cons ch t k).1 h with ⟨_, h2⟩ | h'
          · exact hk h2.symm
          · exact hw h'
      · simp only [hi, if_neg, Bool.false_eq_true, if_false]
        rw [if_neg]
        intro h
        rcases (writesKey_cons ch t k).1 h with ⟨h1, _⟩ | h'
        · exact hi h1
        · exact hw h'

/-- Value after folding `applyChannels` over a list of shapes with a
per-shape value: the last shape (in fold order) whose channel list writes
`k` decides the value. -/
theorem foldShapes_apply (r : MorphIndex) (f : Shape → ℚ) (ss : List Shape) (w : Weights)
    (k : ChanKey) :
    (ss.foldl (fun w nm => applyChannels (r.get nm) (f nm) w) w) k =
      match ss.reverse.find? (fun nm => decide (writesKey (r.get nm) k)) with
      | some nm => f nm
      | none => w k := by
  induction ss generalizing w with
  | nil => simp
  | cons nm t ih =>
    simp only [List.foldl_cons, List.reverse_cons]
    rw [ih]
    rw [List.find?_append]
    cases hf : t.reverse.find? (fun nm => decide (writesKey (r.get nm) k)) with
    | some m => simp [hf]
    | none =>
      simp only [hf, Option.none_orElse]
      by_cases hw : writesKey (r.get nm) k
      · simp [List.find?, hw, applyChannels_apply]
      · simp [List.find?, hw, applyChannels_apply]

theorem clearLists_apply (ls : List (List MorphChannel)) (w : Weights) (k : ChanKey) :
    (ls.foldl (fun w arr => applyChannels arr 0 w) w) k =
      if ∃ arr ∈ ls, writesKey arr k then 0 else w k := by
  induction ls generalizing w with
  | nil => simp
  | cons arr t ih =>
    simp only [List.foldl_cons]
    rw [ih]
    by_cases hw : ∃ a ∈ t, writesKey a k
    · rw [if_pos hw, if_pos]
      exact ⟨hw.choose, List.mem_cons_of_mem _ hw.choose_spec.1, hw.choose_spec.2⟩
    · rw [if_neg hw, applyChannels_apply]
      by_cases ha : writesKey arr k
      · rw [if_pos ha, if_pos ⟨arr, List.mem_cons_self _ _, ha⟩]
      · rw [if_neg ha, if_neg]
        rintro ⟨a, hamem, haw⟩
        rcases List.mem_cons.mp hamem with rfl | hat
        · exact ha haw
        · exact hw ⟨a, hat, haw⟩

theorem clearAllMouth_apply (r : MorphIndex) (w : Weights) (k : ChanKey) :
    clearAllMouth r w k = if ∃ arr ∈ allChannelLists r, writesKey arr k then 0 else w k :=
  clearLists_apply _ w k

/-! ### Generic `find?` facts -/

theorem find?_of_unique {α : Type} (p : α → Bool) :
    ∀ (l : List α) (a : α), a ∈ l → p a = true → (∀ b ∈ l, p b = true → b = a) →
      l.find? p = some a := by
  intro l
  induction l with
  | nil => intro a ha; exact absurd ha (List.not_mem_nil a)
  | cons c t ih =>
    intro a ha hpa huniq
    by_cases hpc : p c = true
    · have : c = a := huniq c (List.mem_cons_self _ _) hpc
      simp [List.find?, hpc, this, hpa]
    · have hat : a ∈ t := by
        rcases List.mem_cons.mp ha with rfl | h
        · exact absurd hpa hpc
        · exact h
      simp only [List.find?, hpc]
      exact ih a hat hpa fun b hb => huniq b (List.mem_cons_of_mem _ hb)

/-- Searching a list from the end: if index `j` satisfies `p` and every
later index fails it, the backwards search returns element `j`. -/
theorem find?_reverse_getElem {α : Type} (p : α → Bool) :
    ∀ (l : List α) (j : ℕ) (hj : j < l.length), p l[j] = true →
      (∀ (i : ℕ) (hi : i < l.length), j < i → p l[i] = false) →
      l.reverse.find? p = some l[j] := by
  intro l
  induction l using List.reverseRecOn with
  | nil => intro j hj; simp at hj
  | append_singleton t a ih =>
    intro j hj hpj hafter
    have hlen : (t ++ [a]).length = t.length + 1 := by simp
    rw [List.reverse_append, List.reverse_singleton, List.singleton_append]
    rcases Nat.lt_succ_iff_lt_or_eq.mp (hlen ▸ hj) with hjt | hje
    · have hpa : p a = false := by
        have := hafter t.length (by simp) hjt
        rwa [List.getElem_concat_length t a t.length rfl] at this
      have hja : (t ++ [a])[j] = t[j] := List.getElem_append_left hjt
      rw [List.find?_cons, hpa]
      rw [hja] at hpj
      have hrec := ih j hjt hpj (fun i hi hji => by
        have := hafter i (by omega) hji
        rwa [List.getElem_append_left hi] at this)
      rw [hrec, hja]
    · have hja : (t ++ [a])[j] = a := List.getElem_concat_length t a j hje hj
      rw [hja] at hpj ⊢
      simp [List.find?_cons, hpj]

/-! ### Facts about the heuristic timeline builder -/

theorem lettersOf_ne_nil (clean : List Char) : lettersOf clean ≠ [] := by
  unfold lettersOf
  by_cases h : clean.filter isAsciiLetter = [] <;> simp [h]

theorem lettersOf_length_pos (clean : List Char) : 0 < (lettersOf clean).length :=
  List.length_pos.mpr (lettersOf_ne_nil clean)

theorem estDuration_pos (words : ℕ) (tm : Option ℚ) (h : HintOK tm) :
    0 < estDuration words tm := by
  rcases h with rfl | ⟨q, rfl, hq⟩
  · have h1 : (1400 : ℚ) ≤ max 1400 (min 18000 ((words : ℚ) * 272 * (27 / 20))) :=
      le_max_left _ _
    simp only [estDuration, Option.getD_none]
    linarith
  · simpa [estDuration] using hq

theorem stepOf_pos (text : List Char) (tm : Option ℚ) (h : HintOK tm) :
    0 < stepOf text tm := by
  unfold stepOf
  apply div_pos (estDuration_pos _ _ h)
  exact_mod_cast lettersOf_length_pos (cleanText text)

theorem length_mul_stepOf (text : List Char) (tm : Option ℚ) :
    ((lettersOf (cleanText text)).length : ℚ) * stepOf text tm =
      estDuration (wordCount (cleanText text)) tm := by
  unfold stepOf
  rw [mul_comm, div_mul_cancel₀]
  exact_mod_cast (lettersOf_length_pos (cleanText text)).ne'

theorem build_length (text : List Char) (tm : Option ℚ) (h : cleanText text ≠ []) :
    (buildVisemeTimelineFromText text tm).length = (lettersOf (cleanText text)).length := by
  unfold buildVisemeTimelineFromText
  simp [h]

theorem build_ne_nil (text : List Char) (tm : Option ℚ) (h : cleanText text ≠ []) :
    buildVisemeTimelineFromText text tm ≠ [] := by
  intro hc
  have := build_length text tm h
  rw [hc] at this
  exact absurd this.symm (Nat.pos_iff_ne_zero.mp (lettersOf_length_pos (cleanText text)))

theorem build_getElem (text : List Char) (tm : Option ℚ) (h : cleanText text ≠ []) (i : ℕ)
    (hi : i < (buildVisemeTimelineFromText text tm).length) :
    (buildVisemeTimelineFromText text tm)[i] =
      { time := (i : ℚ) * stepOf text tm,
        shape := mapChar ((lettersOf (cleanText text)).getD i 'a'),
        value := 19 / 20,
        dur := stepOf text tm * (22 / 25) } := by
  have hi' : i < (lettersOf (cleanText text)).length := by
    rwa [build_length text tm h] at hi
  simp only [buildVisemeTimelineFromText, h, if_neg, ne_eq, not_false_eq_true,
    List.getElem_map, List.getElem_enum, stepOf]
  rw [List.getD_eq_getElem _ _ hi']

theorem evAt_build (text : List Char) (tm : Option ℚ) (h : cleanText text ≠ []) (i : ℕ)
    (hi : i < (buildVisemeTimelineFromText text tm).length) :
    evAt (buildVisemeTimelineFromText text tm) i =
      { time := (i : ℚ) * stepOf text tm,
        shape := mapChar ((lettersOf (cleanText text)).getD i 'a'),
        value := 19 / 20,
        dur := stepOf text tm * (22 / 25) } := by
  rw [evAt, List.getD_eq_getElem _ _ hi, build_getElem text tm h i hi]

theorem build_findLastLE (text : List Char) (tm : Option ℚ) (e : ℚ)
    (h : cleanText text ≠ []) (j : ℕ)
    (hj : j < (buildVisemeTimelineFromText text tm).length)
    (hle : (j : ℚ) * stepOf text tm ≤ e)
    (hgt : ∀ i : ℕ, i < (buildVisemeTimelineFromText text tm).length → j < i →
      e < (i : ℚ) * stepOf text tm) :
    findLastLE (buildVisemeTimelineFromText text tm) e =
      some (evAt (buildVisemeTimelineFromText text tm) j) := by
  unfold findLastLE
  rw [find?_reverse_getElem (fun ev => decide (ev.time ≤ e))
    (buildVisemeTimelineFromText text tm) j hj ?_ ?_]
  · rw [evAt, List.getD_eq_getElem _ _ hj]
  · rw [build_getElem text tm h j hj]
    simpa using hle
  · intro i hi hji
    rw [build_getElem text tm h i hi]
    simpa using hgt i hi hji

/-! ### Unfolding the tick -/

theorem timelineTick_active (r : MorphIndex) (v : VisemeState) (now : ℚ) (w : Weights)
    (ha : v.active = true) (hne : v.timeline ≠ []) :
    timelineTick r v now w =
      (let elapsed := now - v.startedAt
       let w1 :=
         match findLastLE v.timeline elapsed with
         | some k =>
           if elapsed ≤ k.time + k.dur then setMouthShape r k.shape k.value w
           else clearAllMouth r w
         | none => w
       let last := evAt v.timeline (v.timeline.length - 1)
       if last.time + last.dur + 120 < elapsed then
         ({ v with active := false }, clearAllMouth r w1)
       else (v, w1)) := by
  unfold timelineTick
  rw [if_pos ⟨ha, hne⟩]

theorem timelineTick_inactive (r : MorphIndex) (v : VisemeState) (now : ℚ) (w : Weights)
    (ha : v.active = false) : timelineTick r v now w = (v, w) := by
  unfold timelineTick
  rw [if_neg]
  rintro ⟨h1, _⟩
  rw [ha] at h1
  exact Bool.false_ne_true h1

/-- Inside the grace period, the tick on a freshly started heuristic
timeline selects event `j` (the last one started) and applies the window
rule. -/
theorem build_tick_at (r : MorphIndex) (text : List Char) (tm : Option ℚ)
    (anchor now : ℚ) (w : Weights) (h : cleanText text ≠ []) (j : ℕ)
    (hj : j < (buildVisemeTimelineFromText text tm).length)
    (hle : (j : ℚ) * stepOf text tm ≤ now - anchor)
    (hgt : ∀ i : ℕ, i < (buildVisemeTimelineFromText text tm).length → j < i →
      now - anchor < (i : ℚ) * stepOf text tm)
    (hend : now - anchor ≤
      (((buildVisemeTimelineFromText text tm).length - 1 : ℕ) : ℚ) * stepOf text tm +
        stepOf text tm * (22 / 25) + 120) :
    timelineTick r (driveMouthStart text tm anchor) now w =
      (driveMouthStart text tm anchor,
       if now - anchor ≤ (j : ℚ) * stepOf text tm + stepOf text tm * (22 / 25) then
         setMouthShape r (mapChar ((lettersOf (cleanText text)).getD j 'a')) (19 / 20) w
       else clearAllMouth r w) := by
  have hne : (driveMouthStart text tm anchor).timeline ≠ [] := build_ne_nil text tm h
  have hlast : (buildVisemeTimelineFromText text tm).length - 1 <
      (buildVisemeTimelineFromText text tm).length := by
    have := build_length text tm h
    have := lettersOf_length_pos (cleanText text)
    omega
  rw [timelineTick_active r _ now w rfl hne]
  simp only [driveMouthStart]
  rw [build_findLastLE text tm (now - anchor) h j hj hle hgt]
  rw [evAt_build text tm h j hj, evAt_build text tm h _ hlast]
  rw [if_neg (not_lt.mpr hend)]

/-- Past the final event's end plus the 120 ms grace window, the tick
deactivates the timeline and clears the mouth. -/
theorem build_tick_past_end (r : MorphIndex) (text : List Char) (tm : Option ℚ)
    (anchor : ℚ) (w : Weights) (h : cleanText text ≠ []) (hhint : HintOK tm) :
    timelineTick r (driveMouthStart text tm anchor)
        (anchor + estDuration (wordCount (cleanText text)) tm + 120 + 1) w =
      ({ driveMouthStart text tm anchor with active := false },
       clearAllMouth r (clearAllMouth r w)) := by
  have hne : (driveMouthStart text tm anchor).timeline ≠ [] := build_ne_nil text tm h
  have hlen := build_length text tm h
  have hnpos : 0 < (buildVisemeTimelineFromText text tm).length := by
    rw [hlen]; exact lettersOf_length_pos _
  have hstep : 0 < stepOf text tm := stepOf_pos text tm hhint
  have hest : ((buildVisemeTimelineFromText text tm).length : ℚ) * stepOf text tm =
      estDuration (wordCount (cleanText text)) tm := by
    rw [hlen]; exact length_mul_stepOf text tm
  have hcast : (((buildVisemeTimelineFromText text tm).length - 1 : ℕ) : ℚ) =
      ((buildVisemeTimelineFromText text tm).length : ℚ) - 1 := by
    have h1 : 1 ≤ (buildVisemeTimelineFromText text tm).length := hnpos
    push_cast [h1]
    ring
  have hj : (buildVisemeTimelineFromText text tm).length - 1 <
      (buildVisemeTimelineFromText text tm).length := by omega
  have hle : (((buildVisemeTimelineFromText text tm).length - 1 : ℕ) : ℚ) * stepOf text tm ≤
      anchor + estDuration (wordCount (cleanText text)) tm + 120 + 1 - anchor := by
    rw [hcast]
    nlinarith [hstep, hest]
  have hgt : ∀ i : ℕ, i < (buildVisemeTimelineFromText text tm).length →
      (buildVisemeTimelineFromText text tm).length - 1 < i →
      anchor + estDuration (wordCount (cleanText text)) tm + 120 + 1 - anchor <
        (i : ℚ) * stepOf text tm := by
    intro i hi hgi
    exact absurd hgi (by omega)
  have hwin : ¬(anchor + estDuration (wordCount (cleanText text)) tm + 120 + 1 - anchor ≤
      (((buildVisemeTimelineFromText text tm).length - 1 : ℕ) : ℚ) * stepOf text tm +
        stepOf text tm * (22 / 25)) := by
    rw [hcast]
    nlinarith [hstep, hest]
  have hdeact : (((buildVisemeTimelineFromText text tm).length - 1 : ℕ) : ℚ) * stepOf text tm +
        stepOf text tm * (22 / 25) + 120 <
      anchor + estDuration (wordCount (cleanText text)) tm + 120 + 1 - anchor := by
    rw [hcast]
    nlinarith [hstep, hest]
  rw [timelineTick_active r _ _ w rfl hne]
  simp only [driveMouthStart]
  rw [build_findLastLE text tm _ h _ hj hle hgt, evAt_build text tm h _ hj]
  dsimp only
  rw [if_neg hwin, if_pos hdeact]

/-- On a freshly started heuristic timeline, every tick from the anchor up
to the final event's end plus the grace window satisfies `TickSpec`. -/
theorem build_tickSpec (r : MorphIndex) (text : List Char) (tm : Option ℚ)
    (anchor now : ℚ) (w : Weights) (h : cleanText text ≠ []) (hhint : HintOK tm)
    (h0 : anchor ≤ now)
    (hend : now - anchor ≤
      (evAt (buildVisemeTimelineFromText text tm)
        ((buildVisemeTimelineFromText text tm).length - 1)).time +
      (evAt (buildVisemeTimelineFromText text tm)
        ((buildVisemeTimelineFromText text tm).length - 1)).dur + 120) :
    TickSpec r (buildVisemeTimelineFromText text tm) anchor now w := by
  have hlen := build_length text tm h
  have hnpos : 0 < (buildVisemeTimelineFromText text tm).length := by
    rw [hlen]; exact lettersOf_length_pos _
  have hstep : 0 < stepOf text tm := stepOf_pos text tm hhint
  have he0 : 0 ≤ now - anchor := by linarith
  have hq0 : 0 ≤ (now - anchor) / stepOf text tm := div_nonneg he0 (le_of_lt hstep)
  set q := Nat.floor ((now - anchor) / stepOf text tm) with hqdef
  set j := min ((buildVisemeTimelineFromText text tm).length - 1) q with hjdef
  have hj : j < (buildVisemeTimelineFromText text tm).length := by omega
  have hle : (j : ℚ) * stepOf text tm ≤ now - anchor := by
    have h1 : (j : ℚ) ≤ q := by exact_mod_cast Nat.cast_le.mpr (min_le_right _ _)
    have h2 : (q : ℚ) ≤ (now - anchor) / stepOf text tm := Nat.floor_le hq0
    have h3 : (j : ℚ) * stepOf text tm ≤ ((now - anchor) / stepOf text tm) * stepOf text tm :=
      mul_le_mul_of_nonneg_right (le_trans h1 h2) (le_of_lt hstep)
    rwa [div_mul_cancel₀ _ (ne_of_gt hstep)] at h3
  have hgt : ∀ i : ℕ, i < (buildVisemeTimelineFromText text tm).length → j < i →
      now - anchor < (i : ℚ) * stepOf text tm := by
    intro i hi hji
    have hqi : q < i := by omega
    have h1 : (now - anchor) / stepOf text tm < (q : ℚ) + 1 := Nat.lt_floor_add_one _
    have h2 : ((q : ℚ) + 1) ≤ (i : ℚ) := by exact_mod_cast hqi
    have h3 : (now - anchor) / stepOf text tm * stepOf text tm <
        ((q : ℚ) + 1) * stepOf text tm := by
      exact mul_lt_mul_of_pos_right h1 hstep
    rw [div_mul_cancel₀ _ (ne_of_gt hstep)] at h3
    calc now - anchor < ((q : ℚ) + 1) * stepOf text tm := h3
      _ ≤ (i : ℚ) * stepOf text tm := mul_le_mul_of_nonneg_right h2 (le_of_lt hstep)
  have hlast : (buildVisemeTimelineFromText text tm).length - 1 <
      (buildVisemeTimelineFromText text tm).length := by omega
  have hend' : now - anchor ≤
      (((buildVisemeTimelineFromText text tm).length - 1 : ℕ) : ℚ) * stepOf text tm +
        stepOf text tm * (22 / 25) + 120 := by
    rw [evAt_build text tm h _ hlast] at hend
    exact hend
  refine ⟨j, hj, ?_, ?_, ?_, ?_⟩
  · rw [evAt_build text tm h j hj]; exact hle
  · intro i hi hji
    rw [evAt_build text tm h i hi]
    exact hgt i hi hji
  · exact build_findLastLE text tm _ h j hj hle hgt
  · have := build_tick_at r text tm anchor now w h j hj hle hgt hend'
    simp only [driveMouthStart] at this
    rw [this, evAt_build text tm h j hj]

theorem clearAllMouth_registered (r : MorphIndex) (w : Weights) (ch : MorphChannel)
    (hreg : registeredIn r ch) (hinf : ch.hasInfluences = true) :
    clearAllMouth r w ch.key = 0 := by
  rw [clearAllMouth_apply, if_pos]
  rcases hreg with hm | hm | hm | hm | hm | hm
  · exact ⟨r.A, by simp [allChannelLists], ch, hm, hinf, rfl⟩
  · exact ⟨r.E, by simp [allChannelLists], ch, hm, hinf, rfl⟩
  · exact ⟨r.I, by simp [allChannelLists], ch, hm, hinf, rfl⟩
  · exact ⟨r.O, by simp [allChannelLists], ch, hm, hinf, rfl⟩
  · exact ⟨r.U, by simp [allChannelLists], ch, hm, hinf, rfl⟩
  · exact ⟨r.mouthOpen, by simp [allChannelLists], ch, hm, hinf, rfl⟩

/-! ## Claim C1 -/

/-- C1 (amended): for a heuristic timeline started by `driveMouthStart` with
a positive (or absent) duration hint: (i) half a slot after the anchor the
tick applies the first event's shape and intensity and keeps the timeline
active; (ii) one past the estimated duration plus the 120 ms grace window
the tick deactivates the timeline and clears the mouth, every registered
channel ending at weight 0; (iii) on a deactivated timeline every tick is a
no-op, so the mouth stays clear; (iv) at every tick time between the anchor
and the final event's end plus the grace window, the tick selects the last
event whose start time is ≤ elapsed and applies its shape exactly when
elapsed lies in its `[time, time+dur]` window, clearing otherwise. -/
theorem c1_timeline_tick (r : MorphIndex) (text : List Char) (tm : Option ℚ)
    (anchor : ℚ) (w : Weights) (hclean : cleanText text ≠ []) (hhint : HintOK tm) :
    (timelineTick r (driveMouthStart text tm anchor)
        (anchor + stepOf text tm * (1 / 2)) w =
      (driveMouthStart text tm anchor,
       setMouthShape r (evAt (buildVisemeTimelineFromText text tm) 0).shape
         (evAt (buildVisemeTimelineFromText text tm) 0).value w)) ∧
    (timelineTick r (driveMouthStart text tm anchor)
        (anchor + estDuration (wordCount (cleanText text)) tm + 120 + 1) w =
      ({ driveMouthStart text tm anchor with active := false },
       clearAllMouth r (clearAllMouth r w))) ∧
    (∀ ch : MorphChannel, registeredIn r ch → ch.hasInfluences = true →
      (timelineTick r (driveMouthStart text tm anchor)
        (anchor + estDuration (wordCount (cleanText text)) tm + 120 + 1) w).2 ch.key = 0) ∧
    (∀ (v : VisemeState) (now : ℚ) (w1 : Weights), v.active = false →
      timelineTick r v now w1 = (v, w1)) ∧
    (∀ (now : ℚ) (w1 : Weights), anchor ≤ now →
      now - anchor ≤
        (evAt (buildVisemeTimelineFromText text tm)
          ((buildVisemeTimelineFromText text tm).length - 1)).time +
        (evAt (buildVisemeTimelineFromText text tm)
          ((buildVisemeTimelineFromText text tm).length - 1)).dur + 120 →
      TickSpec r (buildVisemeTimelineFromText text tm) anchor now w1) := by
  have hlen := build_length text tm hclean
  have hnpos : 0 < (buildVisemeTimelineFromText text tm).length := by
    rw [hlen]; exact lettersOf_length_pos _
  have hstep : 0 < stepOf text tm := stepOf_pos text tm hhint
  refine ⟨?_, ?_, ?_, ?_, ?_⟩
  · -- (i) half a slot in: first event's shape
    have hle : ((0 : ℕ) : ℚ) * stepOf text tm ≤ anchor + stepOf text tm * (1 / 2) - anchor := by
      push_cast
      nlinarith
    have hgt : ∀ i : ℕ, i < (buildVisemeTimelineFromText text tm).length → 0 < i →
        anchor + stepOf text tm * (1 / 2) - anchor < (i : ℚ) * stepOf text tm := by
      intro i _ hi
      have h1 : (1 : ℚ) ≤ (i : ℚ) := by exact_mod_cast hi
      nlinarith
    have hend : anchor + stepOf text tm * (1 / 2) - anchor ≤
        (((buildVisemeTimelineFromText text tm).length - 1 : ℕ) : ℚ) * stepOf text tm +
          stepOf text tm * (22 / 25) + 120 := by
      have h1 : (0 : ℚ) ≤ (((buildVisemeTimelineFromText text tm).length - 1 : ℕ) : ℚ) :=
        Nat.cast_nonneg _
      nlinarith
    have := build_tick_at r text tm anchor (anchor + stepOf text tm * (1 / 2)) w hclean 0
      hnpos hle hgt hend
    rw [this, evAt_build text tm hclean 0 hnpos]
    have hwin : anchor + stepOf text tm * (1 / 2) - anchor ≤
        ((0 : ℕ) : ℚ) * stepOf text tm + stepOf text tm * (22 / 25) := by
      push_cast
      nlinarith
    rw [if_pos hwin]
  · -- (ii) past the end plus grace: deactivate and clear
    exact build_tick_past_end r text tm anchor w hclean hhint
  · -- registered channels end at 0
    intro ch hreg hinf
    rw [build_tick_past_end r text tm anchor w hclean hhint]
    exact clearAllMouth_registered r _ ch hreg hinf
  · -- (iii) inactive timelines: no-op ticks
    intro v now w1 ha
    exact timelineTick_inactive r v now w1 ha
  · -- (iv) general selection and window rule
    intro now w1 h0 hend
    exact build_tickSpec r text tm anchor now w1 hclean hhint h0 hend

/-- Witness for `c1_timeline_tick` at the registry `regAE`, text `"ab"`, no
hint, anchor 0: the past-the-end tick deactivates the timeline. -/
theorem c1_timeline_tick_witness :
    cleanText ['a', 'b'] ≠ [] ∧ HintOK (none : Option ℚ) ∧
    (timelineTick regAE (driveMouthStart ['a', 'b'] none 0)
      (0 + estDuration (wordCount (cleanText ['a', 'b'])) none + 120 + 1) wzero).1.active
      = false := by
  refine ⟨by decide, Or.inl rfl, ?_⟩
  rw [(c1_timeline_tick regAE ['a', 'b'] none 0 wzero (by decide) (Or.inl rfl)).2.1]

/-- Counterexample to C1 as stated: with an explicit duration hint of 0 the
slot width is 0 and every event starts at time 0, so at
`anchor + slot*0.5 = anchor` the backwards search selects the *last* event
(shape `I` for `"ab"`), not the first (shape `A`): the `I` channel of
`regAI` ends at 0.95 and the `A` channel at 0. -/
theorem c1_counterexample :
    (evAt (buildVisemeTimelineFromText ['a', 'b'] (some 0)) 0).shape = Shape.A ∧
    (timelineTick regAI (driveMouthStart ['a', 'b'] (some 0) 0)
      (0 + stepOf ['a', 'b'] (some 0) * (1 / 2)) wzero).2 ((1 : ℕ), (0 : ℕ)) = 19 / 20 ∧
    (timelineTick regAI (driveMouthStart ['a', 'b'] (some 0) 0)
      (0 + stepOf ['a', 'b'] (some 0) * (1 / 2)) wzero).2 ((0 : ℕ), (0 : ℕ)) = 0 ∧
    setMouthShape regAI
      (evAt (buildVisemeTimelineFromText ['a', 'b'] (some 0)) 0).shape (19 / 20) wzero
      ((0 : ℕ), (0 : ℕ)) = 19 / 20 := by
  refine ⟨?_, ?_, ?_, ?_⟩ <;>
    norm_num +decide [timelineTick, driveMouthStart, buildVisemeTimelineFromText, cleanText,
      collapseWsAux, trimChars, isJsWs, splitOnSpace, wordCount, lettersOf, isAsciiLetter,
      mapChar, estDuration, stepOf, findLastLE, evAt, dummyEvent, setMouthShape, clearAllMouth,
      applyChannels, writeW, allChannelLists, vowelShapes, MorphIndex.get, MorphChannel.key,
      regAI, chA, chB, wzero, List.enum, List.enumFrom, List.find?, List.foldl, List.filter,
      List.dropWhile]

/-! ## Claim C2 -/

/-- C2 (amended): for every input text and every positive (or absent)
duration hint, the events of `buildVisemeTimelineFromText` have pairwise
non-overlapping `[time, time+dur]` windows (each window ends strictly before
the next starts) and every window lies inside `[0, estimatedDuration]`. -/
theorem c2_windows (text : List Char) (tm : Option ℚ) (hhint : HintOK tm) :
    (∀ (i j : ℕ), i < (buildVisemeTimelineFromText text tm).length →
        j < (buildVisemeTimelineFromText text tm).length → i < j →
      (evAt (buildVisemeTimelineFromText text tm) i).time +
        (evAt (buildVisemeTimelineFromText text tm) i).dur <
      (evAt (buildVisemeTimelineFromText text tm) j).time) ∧
    (∀ i : ℕ, i < (buildVisemeTimelineFromText text tm).length →
      0 ≤ (evAt (buildVisemeTimelineFromText text tm) i).time ∧
      (evAt (buildVisemeTimelineFromText text tm) i).time +
        (evAt (buildVisemeTimelineFromText text tm) i).dur ≤
        estDuration (wordCount (cleanText text)) tm) := by
  by_cases hclean : cleanText text = []
  · constructor
    · intro i j hi _ _
      rw [buildVisemeTimelineFromText, if_pos hclean] at hi
      simp at hi
    · intro i hi
      rw [buildVisemeTimelineFromText, if_pos hclean] at hi
      simp at hi
  · have hstep : 0 < stepOf text tm := stepOf_pos text tm hhint
    have hlen := build_length text tm hclean
    have hest : ((buildVisemeTimelineFromText text tm).length : ℚ) * stepOf text tm =
        estDuration (wordCount (cleanText text)) tm := by
      rw [hlen]; exact length_mul_stepOf text tm
    constructor
    · intro i j hi hj hij
      rw [evAt_build text tm hclean i hi, evAt_build text tm hclean j hj]
      have h1 : (i : ℚ) + 1 ≤ (j : ℚ) := by exact_mod_cast hij
      nlinarith
    · intro i hi
      rw [evAt_build text tm hclean i hi]
      constructor
      · positivity
      · have h1 : (i : ℚ) + 1 ≤ ((buildVisemeTimelineFromText text tm).length : ℚ) := by
          exact_mod_cast hi
        nlinarith

/-- Witness for `c2_windows`: for `"hi"` with no hint, the first event's
window ends strictly before the second event starts. -/
theorem c2_windows_witness :
    HintOK (none : Option ℚ) ∧
    (evAt (buildVisemeTimelineFromText ['h', 'i'] none) 0).time +
      (evAt (buildVisemeTimelineFromText ['h', 'i'] none) 0).dur <
    (evAt (buildVisemeTimelineFromText ['h', 'i'] none) 1).time :=
  ⟨Or.inl rfl,
   (c2_windows ['h', 'i'] none (Or.inl rfl)).1 0 1 (by decide) (by decide) (by decide)⟩

/-- Counterexample to C2 as stated: with the explicit duration hint 0
(a legal argument of `build`), both events of `"ab"` get `time = 0` and
`dur = 0`, so both closed windows equal `[0, 0]` and they overlap at 0. -/
theorem c2_counterexample :
    evAt (buildVisemeTimelineFromText ['a', 'b'] (some 0)) 0 =
      { time := 0, shape := .A, value := 19 / 20, dur := 0 } ∧
    evAt (buildVisemeTimelineFromText ['a', 'b'] (some 0)) 1 =
      { time := 0, shape := .I, value := 19 / 20, dur := 0 } ∧
    (evAt (buildVisemeTimelineFromText ['a', 'b'] (some 0)) 0).time ≤ 0 ∧
    0 ≤ (evAt (buildVisemeTimelineFromText ['a', 'b'] (some 0)) 0).time +
      (evAt (buildVisemeTimelineFromText ['a', 'b'] (some 0)) 0).dur ∧
    (evAt (buildVisemeTimelineFromText ['a', 'b'] (some 0)) 1).time ≤ 0 ∧
    0 ≤ (evAt (buildVisemeTimelineFromText ['a', 'b'] (some 0)) 1).time +
      (evAt (buildVisemeTimelineFromText ['a', 'b'] (some 0)) 1).dur := by
  refine ⟨?_, ?_, ?_, ?_, ?_, ?_⟩ <;>
    norm_num +decide [buildVisemeTimelineFromText, cleanText, collapseWsAux, trimChars,
      isJsWs, splitOnSpace, wordCount, lettersOf, isAsciiLetter, mapChar, estDuration,
      evAt, dummyEvent, List.enum, List.enumFrom]

/-! ## Claim C3 -/

/-- The text of the spec scenario. -/
def helloWorld : List Char := ['H', 'e', 'l', 'l', 'o', ' ', 'w', 'o', 'r', 'l', 'd']

/-- C3: with no hint the estimated duration is the documented clamp.  In
`part_003` the per-word rate is `272 * 1.35` ms (272 ms/word adjusted by the
1.35 speech-rate factor), clamped to `[1400, 18000]`; in the jsx variant it
is `333` ms/word clamped to `[1200, 12000]`.  The estimate is recoverable
from the built timeline (`length * (firstDur * 25/22)`), and for the 2-word
text `"Hello world"` both estimates clamp up to their minimum, inside the
configured `[min, max]`. -/
theorem c3_est_duration (text : List Char) (h : cleanText text ≠ []) :
    (estDuration (wordCount (cleanText text)) none =
        max 1400 (min 18000 ((wordCount (cleanText text) : ℚ) * 272 * (27 / 20))) ∧
      1400 ≤ estDuration (wordCount (cleanText text)) none ∧
      estDuration (wordCount (cleanText text)) none ≤ 18000) ∧
    (estDurationJsx (wordCount (cleanText text)) none =
        max 1200 (min 12000 ((wordCount (cleanText text) : ℚ) * 333)) ∧
      1200 ≤ estDurationJsx (wordCount (cleanText text)) none ∧
      estDurationJsx (wordCount (cleanText text)) none ≤ 12000) ∧
    (((buildVisemeTimelineFromText text none).length : ℚ) *
        ((evAt (buildVisemeTimelineFromText text none) 0).dur * (25 / 22)) =
      estDuration (wordCount (cleanText text)) none) ∧
    estDuration (wordCount (cleanText helloWorld)) none = 1400 ∧
    estDurationJsx (wordCount (cleanText helloWorld)) none = 1200 := by
  refine ⟨⟨by simp [estDuration], ?_, ?_⟩, ⟨by simp [estDurationJsx], ?_, ?_⟩, ?_, ?_, ?_⟩
  · simp only [estDuration, Option.getD_none]
    exact le_max_left _ _
  · simp only [estDuration, Option.getD_none]
    exact max_le (by norm_num) (min_le_left _ _)
  · simp only [estDurationJsx, Option.getD_none]
    exact le_max_left _ _
  · simp only [estDurationJsx, Option.getD_none]
    exact max_le (by norm_num) (min_le_left _ _)
  · have hnpos : 0 < (buildVisemeTimelineFromText text none).length := by
      rw [build_length text none h]; exact lettersOf_length_pos _
    rw [evAt_build text none h 0 hnpos]
    have hest : ((buildVisemeTimelineFromText text none).length : ℚ) * stepOf text none =
        estDuration (wordCount (cleanText text)) none := by
      rw [build_length text none h]; exact length_mul_stepOf text none
    nlinarith [hest]
  · norm_num +decide [helloWorld, estDuration, cleanText, collapseWsAux, trimChars, isJsWs,
      splitOnSpace, wordCount]
  · norm_num +decide [helloWorld, estDurationJsx, cleanText, collapseWsAux, trimChars, isJsWs,
      splitOnSpace, wordCount]

/-- Witness for `c3_est_duration` at the scenario text `"Hello world"`. -/
theorem c3_est_duration_witness :
    cleanText helloWorld ≠ [] ∧
    estDuration (wordCount (cleanText helloWorld)) none = 1400 :=
  ⟨by decide, (c3_est_duration helloWorld (by decide)).2.2.2.1⟩

/-! ## Claim C4 -/

/-- C4 (amended): for a vowel shape `s` that has at least one registered
channel, in a registry where no (mesh, target) location is registered under
two different vowel labels, `setMouthShape s v` sets the weight of every
channel tagged `s` (whose mesh exposes influences) to `v` and the weight of
every other registered vowel channel — on any mesh — to 0, so no two vowel
shapes are rendered simultaneously. -/
theorem c4_mutual_exclusion (r : MorphIndex) (s : Shape) (v : ℚ) (w : Weights)
    (hne : r.get s ≠ [])
    (hdisj : ∀ s1 s2 : Shape, s1 ≠ s2 → ∀ c1 ∈ r.get s1, ∀ c2 ∈ r.get s2,
      c1.key ≠ c2.key) :
    (∀ ch ∈ r.get s, ch.hasInfluences = true → setMouthShape r s v w ch.key = v) ∧
    (∀ s2 : Shape, s2 ≠ s → ∀ ch ∈ r.get s2, ch.hasInfluences = true →
      setMouthShape r s v w ch.key = 0) := by
  have hlen : (r.get s).length ≠ 0 := by
    simpa [List.length_eq_zero] using hne
  have key : ∀ (s0 : Shape) (ch : MorphChannel), ch ∈ r.get s0 → ch.hasInfluences = true →
      setMouthShape r s v w ch.key = if s0 = s then v else 0 := by
    intro s0 ch hch hinf
    unfold setMouthShape
    rw [if_pos hlen, foldShapes_apply r (fun nm => if nm = s then v else 0) vowelShapes w ch.key]
    have hfind : (vowelShapes.reverse).find?
        (fun nm => decide (writesKey (r.get nm) ch.key)) = some s0 := by
      apply find?_of_unique
      · cases s0 <;> decide
      · exact decide_eq_true ⟨ch, hch, hinf, rfl⟩
      · intro b _ hpb
        by_contra hbs
        rcases of_decide_eq_true hpb with ⟨c2, hc2, _, hk2⟩
        exact hdisj b s0 hbs c2 hc2 ch hch hk2
    rw [hfind]
  exact ⟨fun ch hch hinf => by rw [key s ch hch hinf, if_pos rfl],
         fun s2 hs2 ch hch hinf => by rw [key s2 ch hch hinf, if_neg hs2]⟩

/-- Witness for `c4_mutual_exclusion`: in `regAE` (an `A` channel on mesh 0
and an `E` channel on mesh 1), `setMouthShape A 1` drives the `A` channel to
1 and the `E` channel to 0. -/
theorem c4_mutual_exclusion_witness :
    regAE.get .A ≠ [] ∧
    setMouthShape regAE .A 1 wzero chA.key = 1 ∧
    setMouthShape regAE .A 1 wzero chB.key = 0 := by
  have h := c4_mutual_exclusion regAE .A 1 wzero (by decide) (by decide)
  exact ⟨by decide, h.1 chA (by decide) (by decide),
    h.2 .E (by decide) chB (by decide) (by decide)⟩

/-- Counterexample to C4 as stated: substring matching lets one
(mesh, target) location register under both `A` and `E` (`regAEalias`).
Applying shape `A` with intensity 1 then leaves the `A`-tagged channel at 0,
because the later `E` pass overwrites it — the claim promises `v` on every
channel tagged `A`. -/
theorem c4_counterexample :
    chA ∈ regAEalias.A ∧ chA.hasInfluences = true ∧
    setMouthShape regAEalias .A 1 wzero chA.key = 0 ∧ (0 : ℚ) ≠ 1 := by
  refine ⟨by decide, by decide, by decide, by decide⟩

/-! ## Claim C8 -/

/-- C8: if the registry has no vowel-family channel anywhere but has generic
mouth-open channels, every vowel-shape request folds onto the mouth-open
channels: `setMouthShape s v` writes `v` there regardless of `s`. -/
theorem c8_mouth_open_fold (r : MorphIndex) (hA : r.A = []) (hE : r.E = []) (hI : r.I = [])
    (hO : r.O = []) (hU : r.U = []) :
    ∀ (s : Shape) (v : ℚ) (w : Weights), ∀ ch ∈ r.mouthOpen, ch.hasInfluences = true →
      setMouthShape r s v w ch.key = v := by
  intro s v w ch hch hinf
  have hget : r.get s = [] := by cases s <;> assumption
  unfold setMouthShape
  rw [if_neg (by simp [hget])]
  rw [applyChannels_apply, if_pos ⟨ch, hch, hinf, rfl⟩]

/-- Witness for `c8_mouth_open_fold`: in `regMO` (only a mouth-open
channel), `setMouthShape A 1` drives the mouth-open channel to 1.0. -/
theorem c8_mouth_open_fold_witness :
    regMO.A = [] ∧ regMO.E = [] ∧ regMO.I = [] ∧ regMO.O = [] ∧ regMO.U = [] ∧
    setMouthShape regMO .A 1 wzero chA.key = 1 :=
  ⟨rfl, rfl, rfl, rfl, rfl,
   c8_mouth_open_fold regMO rfl rfl rfl rfl rfl .A 1 wzero chA (by decide) (by decide)⟩

/-! ## Claim C10 -/

/-- C10 (amended): the mouth-open fallback is decided per requested shape,
not by a registry-wide flag: whenever the requested shape has no registered
channel, `setMouthShape s v` writes `v` on the mouth-open channels and
leaves every other weight location untouched — in particular every
registered channel of another vowel shape whose location is not aliased by a
mouth-open channel keeps its weight, even when such vowel channels exist. -/
theorem c10_per_shape_fallback (r : MorphIndex) (s : Shape) (v : ℚ) (w : Weights)
    (hs : r.get s = []) :
    (∀ ch ∈ r.mouthOpen, ch.hasInfluences = true → setMouthShape r s v w ch.key = v) ∧
    (∀ k : ChanKey, ¬writesKey r.mouthOpen k → setMouthShape r s v w k = w k) ∧
    (∀ s2 : Shape, ∀ ch ∈ r.get s2, ch.hasInfluences = true →
      ¬writesKey r.mouthOpen ch.key → setMouthShape r s v w ch.key = w ch.key) := by
  have hbranch : ∀ k : ChanKey, setMouthShape r s v w k = applyChannels r.mouthOpen v w k := by
    intro k
    unfold setMouthShape
    rw [if_neg (by simp [hs])]
  refine ⟨?_, ?_, ?_⟩
  · intro ch hch hinf
    rw [hbranch, applyChannels_apply, if_pos ⟨ch, hch, hinf, rfl⟩]
  · intro k hk
    rw [hbranch, applyChannels_apply, if_neg hk]
  · intro s2 ch _ _ hk
    rw [hbranch, applyChannels_apply, if_neg hk]

/-- Witness for `c10_per_shape_fallback`: in `regEM` (an `E` channel on mesh
1, no `A` channel, a mouth-open channel on mesh 0), applying shape `A` sets
the mouth-open channel to the intensity and leaves the `E` channel's prior
weight untouched. -/
theorem c10_per_shape_fallback_witness :
    regEM.get .A = [] ∧
    setMouthShape regEM .A 1 wSeven chA.key = 1 ∧
    setMouthShape regEM .A 1 wSeven chB.key = wSeven chB.key := by
  have h := c10_per_shape_fallback regEM .A 1 wSeven (by decide)
  exact ⟨by decide, h.1 chA (by decide) (by decide),
    h.2.2 .E chB (by decide) (by decide) (by decide)⟩

/-- Counterexample to C10 as stated: discovery aliases the mouth-open
channel with an `O` channel (`regOM`: both sit on mesh 0, target 1).  With
no `A` channel, `setMouthShape A 1` changes the registered `O` channel's
weight from 0 to 1, so the other vowel shapes' channels are *not* left
unchanged. -/
theorem c10_counterexample :
    regOM.get .A = [] ∧ chC ∈ regOM.O ∧
    wzero chC.key = 0 ∧
    setMouthShape regOM .A 1 wzero chC.key = 1 ∧ (1 : ℚ) ≠ 0 := by
  refine ⟨by decide, by decide, by decide, by decide, by decide⟩

/-! ## Claim C9 -/

theorem clearAllMouth_idem (r : MorphIndex) (w : Weights) :
    clearAllMouth r (clearAllMouth r w) = clearAllMouth r w := by
  funext k
  rw [clearAllMouth_apply, clearAllMouth_apply]
  by_cases h : ∃ arr ∈ allChannelLists r, writesKey arr k
  · rw [if_pos h, if_pos h]
  · rw [if_neg h, if_neg h]

/-- C9: `stopMouth` sets every registered channel's weight — the generic
mouth-open channel's included — to 0 from any prior weight state, is a total
function callable in any state (mid-utterance or with nothing active), and
is idempotent: a second application changes neither the avatar state nor the
channel weights. -/
theorem c9_stop_mouth (r : MorphIndex) (s : AvatarState) (w : Weights) :
    (∀ ch : MorphChannel, registeredIn r ch → ch.hasInfluences = true →
      (stopMouth r s w).2 ch.key = 0) ∧
    ((stopMouth r s w).1.visemes.active = false ∧ (stopMouth r s w).1.synth = none) ∧
    stopMouth r (stopMouth r s w).1 (stopMouth r s w).2 = stopMouth r s w := by
  refine ⟨?_, ⟨rfl, rfl⟩, ?_⟩
  · intro ch hreg hinf
    exact clearAllMouth_registered r w ch hreg hinf
  · unfold stopMouth
    rw [clearAllMouth_idem]

/-- Witness for `c9_stop_mouth`: stopping with registry `regAE`, an
in-flight live session and a leftover weight 0.7 leaves the `A` channel at
0. -/
theorem c9_stop_mouth_witness :
    wSeven chA.key = 7 / 10 ∧ (stopMouth regAE sLive wSeven).2 chA.key = 0 :=
  ⟨rfl, (c9_stop_mouth regAE sLive wSeven).1 chA (by decide) (by decide)⟩

/-! ## Claim C5 -/

/-- C5 (amended): `speakAzure` never throws synchronously — it always
settles as a value of `SpeakOutcome`.  A credential-fetch failure rejects
the asynchronous outcome and leaves every mouth weight exactly as it was
(no clear runs on that path), while a streaming-synthesis/playback failure
and a success both fulfil the outcome — indistinguishable to the caller —
and end with `clearAllMouth`, every registered channel at weight 0. -/
theorem c5_speak_outcomes (r : MorphIndex) (s : AvatarState) (newId : ℕ) (synthOk : Bool)
    (w : Weights) :
    (speakAzure r s newId true synthOk w =
      (.fulfilled, { synth := none, visemes := s.visemes }, clearAllMouth r w)) ∧
    (speakAzure r s newId false synthOk w =
      (.rejected, { synth := none, visemes := s.visemes }, w)) ∧
    (∀ ch : MorphChannel, registeredIn r ch → ch.hasInfluences = true →
      (speakAzure r s newId true synthOk w).2.2 ch.key = 0) := by
  refine ⟨rfl, rfl, ?_⟩
  intro ch hreg hinf
  exact clearAllMouth_registered r w ch hreg hinf

/-- Witness for `c5_speak_outcomes`: with registry `regAE` a successful call
clears the `A` channel's leftover weight 0.7 to 0. -/
theorem c5_speak_outcomes_witness :
    wSeven chA.key = 7 / 10 ∧
    (speakAzure regAE sLive 1 true true wSeven).2.2 chA.key = 0 :=
  ⟨rfl, (c5_speak_outcomes regAE sLive 1 true wSeven).2.2 chA (by decide) (by decide)⟩

/-- Counterexample to C5 as stated: a credential failure rejects while a
synthesis failure fulfils — the two failures do *not* produce the same
outcome, and the synthesis failure is indistinguishable from success; on the
credential-failure path the mouth is *not* cleared (the leftover weight 0.7
survives). -/
theorem c5_counterexample :
    (speakAzure regAE sLive 1 false true wSeven).1 = SpeakOutcome.rejected ∧
    (speakAzure regAE sLive 1 true false wSeven).1 = SpeakOutcome.fulfilled ∧
    (speakAzure regAE sLive 1 true true wSeven).1 = SpeakOutcome.fulfilled ∧
    SpeakOutcome.rejected ≠ SpeakOutcome.fulfilled ∧
    (speakAzure regAE sLive 1 false true wSeven).2.2 chA.key = 7 / 10 ∧
    (7 : ℚ) / 10 ≠ 0 := by
  refine ⟨rfl, rfl, rfl, by decide, rfl, by norm_num⟩

/-! ## Claim C6 -/

/-- C6 (amended): a new `speakAzure` call first closes and discards the
previous synthesizer before installing the fresh one (so at most one live
session exists and only the new session's viseme callbacks drive the mouth),
and `driveMouthStart` wholesale-replaces the previous timeline; but each
operation leaves the *other* source untouched: `speakAzure` never
deactivates an active heuristic timeline, and `driveMouthStart` never closes
an in-flight live session. -/
theorem c6_new_utterance (s : AvatarState) (newId : ℕ) (text : List Char) (tm : Option ℚ)
    (now : ℚ) (r : MorphIndex) (credOk synthOk : Bool) (w : Weights) :
    ((speakAzureStart s newId).synth = some newId ∧
     (speakAzureStart s newId).visemes = s.visemes) ∧
    ((speakAzure r s newId credOk synthOk w).2.1.visemes = s.visemes) ∧
    ((driveMouthStartS s text tm now).visemes =
      { timeline := buildVisemeTimelineFromText text tm, startedAt := now, active := true } ∧
     (driveMouthStartS s text tm now).synth = s.synth) := by
  refine ⟨⟨rfl, rfl⟩, ?_, ⟨rfl, rfl⟩⟩
  cases credOk <;> rfl

/-- Counterexample to C6 as stated: starting an Azure utterance while a
heuristic timeline is active leaves that timeline active (two sources), and
`driveMouthStart` while a live session is in flight leaves the session
handle open. -/
theorem c6_counterexample :
    sTimeline.visemes.active = true ∧
    (speakAzureStart sTimeline 1).visemes.active = true ∧
    sLive.synth = some 7 ∧
    (driveMouthStartS sLive ['h', 'i'] none 0).synth = some 7 :=
  ⟨rfl, rfl, rfl, rfl⟩

/-! ## Claim C7 -/

/-- C7 (amended): both builders map vowels through the fixed table
{a→A, e→E, i→I, o→O, u→U} (case-insensitively).  Consonants map to the
single fixed default `I` in `part_003` — build there is a pure, deterministic
function of text and hint — while the jsx variant maps each consonant
through a `Math.random()` draw to `I` or `U`, so its output depends on the
draws, not only on the arguments. -/
theorem c7_char_map (c : Char) (r : Bool) :
    (c.toLower = 'a' → mapChar c = .A ∧ mapCharJsx r c = .A) ∧
    (c.toLower = 'e' → mapChar c = .E ∧ mapCharJsx r c = .E) ∧
    (c.toLower = 'i' → mapChar c = .I ∧ mapCharJsx r c = .I) ∧
    (c.toLower = 'o' → mapChar c = .O ∧ mapCharJsx r c = .O) ∧
    (c.toLower = 'u' → mapChar c = .U ∧ mapCharJsx r c = .U) ∧
    (c.toLower ≠ 'a' → c.toLower ≠ 'e' → c.toLower ≠ 'i' → c.toLower ≠ 'o' →
      c.toLower ≠ 'u' →
      mapChar c = .I ∧ mapCharJsx r c = (if r then .I else .U)) := by
  refine ⟨fun h => ?_, fun h => ?_, fun h => ?_, fun h => ?_, fun h => ?_,
    fun h1 h2 h3 h4 h5 => ?_⟩ <;>
    simp_all [mapChar, mapCharJsx]

/-- Witness for `c7_char_map` at the consonant `'x'`. -/
theorem c7_char_map_witness :
    mapChar 'x' = Shape.I ∧ mapCharJsx true 'x' = (if true then Shape.I else Shape.U) :=
  (c7_char_map 'x' true).2.2.2.2.2 (by decide) (by decide) (by decide) (by decide) (by decide)

/-- Counterexample to C7 as stated: two runs of the jsx builder on the same
text `"b"` with different random draws yield different event sequences (the
single event's shape is `I` in one run and `U` in the other), so build is
not a deterministic function of its arguments there; and in `part_003` the
consonants b, c, d all map to the single default `I` — no alternation
between two shapes. -/
theorem c7_counterexample :
    (evAt (buildVisemeTimelineFromTextJsx (fun _ => true) ['b'] none) 0).shape = Shape.I ∧
    (evAt (buildVisemeTimelineFromTextJsx (fun _ => false) ['b'] none) 0).shape = Shape.U ∧
    buildVisemeTimelineFromTextJsx (fun _ => true) ['b'] none ≠
      buildVisemeTimelineFromTextJsx (fun _ => false) ['b'] none ∧
    mapChar 'b' = Shape.I ∧ mapChar 'c' = Shape.I ∧ mapChar 'd' = Shape.I := by
  have h1 : (evAt (buildVisemeTimelineFromTextJsx (fun _ => true) ['b'] none) 0).shape
      = Shape.I := by
    norm_num +decide [buildVisemeTimelineFromTextJsx, cleanText, collapseWsAux, trimChars,
      isJsWs, splitOnSpace, wordCount, lettersOf, isAsciiLetter, mapCharJsx, estDurationJsx,
      evAt, dummyEvent, List.enum, List.enumFrom]
  have h2 : (evAt (buildVisemeTimelineFromTextJsx (fun _ => false) ['b'] none) 0).shape
      = Shape.U := by
    norm_num +decide [buildVisemeTimelineFromTextJsx, cleanText, collapseWsAux, trimChars,
      isJsWs, splitOnSpace, wordCount, lettersOf, isAsciiLetter, mapCharJsx, estDurationJsx,
      evAt, dummyEvent, List.enum, List.enumFrom]
  refine ⟨h1, h2, ?_, by decide, by decide, by decide⟩
  intro h
  rw [h, h2] at h1
  exact absurd h1 (by decide)

end Avatar
